import Mathlib

/-!
Verification development for the lentics-shipstation rate-selection engine.

Conventions of the shallow embedding:
- Money is modelled in integer cents (the source holds dollar floats whose
  values are whole cents; the 0.35 and 0.30 dollar thresholds become 35, 30).
- Date-times are modelled as integer minutes; one calendar day is 1440
  minutes.  Dates parsed from date-only strings sit on multiples of 1440.
- Box dimensions and weights are modelled in hundredths (inch, ounce), so
  that values such as 1.5 or 15.75 from the lookup tables stay exact.
- A Python function that can raise is embedded as Except String; the error
  string names the exception the interpreter would raise.
- A Python dict built from a (name, value) list is embedded as the list
  itself; pyDictGet mirrors dict(...).get(key) including last-wins semantics
  for duplicate keys.
-/

/-- Stable insertion used by pySortBy: the new element goes in front of the
first position whose key is not smaller, which preserves the original order
of equal keys exactly like the stable Python sorted builtin. -/
def pyInsertBy {α : Type} (key : α → ℤ) (x : α) : List α → List α
  | [] => [x]
  | y :: ys => if key y < key x then y :: pyInsertBy key x ys else x :: y :: ys

/-- Embedding of sorted(list, key=...) for an integer key: stable ascending sort. -/
def pySortBy {α : Type} (key : α → ℤ) : List α → List α
  | [] => []
  | x :: xs => pyInsertBy key x (pySortBy key xs)

/-- Embedding of min(list, key=...): returns the first element with minimal
key, none on the empty list (the caller decides whether that raises). -/
def pyMinBy {α : Type} (key : α → ℤ) : List α → Option α
  | [] => none
  | h :: t => some (t.foldl (fun b x => if key x < key b then x else b) h)

/-- Embedding of max(list, key=...): first element with maximal key. -/
def pyMaxBy {α : Type} (key : α → ℤ) : List α → Option α
  | [] => none
  | h :: t => some (t.foldl (fun b x => if key b < key x then x else b) h)

/-- Embedding of dict(pairs).get(k): the value of the last pair whose name
matches, none when the key is absent. -/
def pyDictGet {β : Type} (l : List (String × β)) (k : String) : Option β :=
  l.foldl (fun acc kv => if kv.1 = k then some kv.2 else acc) none

/-- Round n / d to the nearest integer with ties to even, for d > 0.  This is
the rounding of the Python round builtin, used by the source as
round(price * 1.03, 2) on dollar amounts, here expressed on cents. -/
def py_round_half_even (n d : ℤ) : ℤ :=
  let q := n / d
  let r := n % d
  if d < 2 * r then q + 1
  else if 2 * r < d then q
  else if q % 2 = 0 then q else q + 1

/-- The three-percent account upcharge: round(price * 1.03, 2) in cents. -/
def upcharge3 (cents : ℤ) : ℤ := py_round_half_even (cents * 103) 100

/-- Weekday abbreviation produced by strftime of the Python source, upper
cased; minute 0 of the epoch falls on a Thursday. -/
def pyDayAbbr (ts : ℤ) : String :=
  ["THU", "FRI", "SAT", "SUN", "MON", "TUE", "WED"].getD
    ((ts.ediv 1440).emod 7).toNat "THU"

/-- A UPS transit-time service entry as consumed by ups_api.py: the delivery
date string has already been replaced by its parsed value. -/
structure UpsService where
  serviceLevel : String
  serviceLevelDescription : String
  businessTransitDays : ℤ
  deliveryDate : ℤ
  deliveryDayOfWeek : String
deriving DecidableEq, Repr

/-- One priced shipping option of the UPS pipeline (an element of the
valid_rates list of ups_api.py). -/
structure UpsRate where
  carrierCode : String
  serviceCode : String
  price : ℤ
  deliveryDate : ℤ
deriving DecidableEq, Repr

/-- A winning rate as written to order.winning_rate: carrier, service, price,
the delivery date having been dropped before the assignment. -/
structure BestRate where
  carrierCode : String
  serviceCode : String
  price : ℤ
deriving DecidableEq, Repr

/-- The ShipStation price lists for the two UPS accounts, order.rates of the
source restricted to the keys the UPS client reads.  Both keys are modelled
as present; get_valid_rates of the source subscripts both unconditionally. -/
structure UpsAccountRates where
  ups : List (String × ℤ)
  ups_walleted : List (String × ℤ)
deriving Repr

/-- get_valid_services of ups_api.py: keep the services whose delivery date
is on or before the deliver-by date. -/
def get_valid_services (deliver_by_date : ℤ) (services : List UpsService) :
    List UpsService :=
  services.filter (fun s => s.deliveryDate ≤ deliver_by_date)

/-- The Ground Saver object built by add_ground_saver_to_list from a UPS
Ground service: one extra day normally, two days (skipping Sunday) when
Ground lands on Saturday, the weekday abbreviation recomputed from the new
date. -/
def mkGroundSaver (s : UpsService) : UpsService :=
  if s.deliveryDayOfWeek ≠ "SAT" then
    { s with
      serviceLevel := "GNS"
      serviceLevelDescription := "UPS Ground Saver"
      businessTransitDays := s.businessTransitDays + 1
      deliveryDate := s.deliveryDate + 1440
      deliveryDayOfWeek := pyDayAbbr (s.deliveryDate + 1440) }
  else
    { s with
      serviceLevel := "GNS"
      serviceLevelDescription := "UPS Ground Saver"
      businessTransitDays := s.businessTransitDays + 2
      deliveryDate := s.deliveryDate + 2880
      deliveryDayOfWeek := pyDayAbbr (s.deliveryDate + 2880) }

/-- The loop variable ground_saver of add_ground_saver_to_list: it starts as
the empty dict, and every iteration overwrites it, with None on every
service that is not UPS Ground. -/
inductive GroundSaverAcc where
  | emptyDict
  | pyNone
  | saver (s : UpsService)

/-- add_ground_saver_to_list of ups_api.py.  The loop overwrites the
candidate on every element, so a saver survives to the append only when
UPS Ground is the final element of the list.  On the empty list the source
appends the initial empty dict (empty dict is not None), which makes every
later field access fail; that corner is the error case. -/
def add_ground_saver_to_list (service_list : List UpsService) :
    Except String (List UpsService) :=
  let acc := service_list.foldl
    (fun _a s =>
      if s.serviceLevelDescription = "UPS Ground" then
        GroundSaverAcc.saver (mkGroundSaver s)
      else GroundSaverAcc.pyNone)
    GroundSaverAcc.emptyDict
  match acc with
  | .pyNone => .ok service_list
  | .saver g => .ok (service_list ++ [g])
  | .emptyDict => .error "KeyError: serviceLevelDescription"

/-- The rewritten UPSService version of the same routine
(services/ups_service.py): it stops at the first UPS Ground service, so the
saver is appended whatever the position of Ground in the list. -/
def upsServiceAddGroundSaver (services : List UpsService) : List UpsService :=
  match services.find? (fun s => s.serviceLevelDescription = "UPS Ground") with
  | some s => services ++ [mkGroundSaver s]
  | none => services

/-- The ShipStation name a UPS service is priced under: UPS Ground is looked
up under its registered-mark spelling, every other service under its own
description (the naming anomaly handled by get_valid_rates). -/
def ups_rate_name (s : UpsService) : String :=
  if s.serviceLevelDescription = "UPS Ground" then "UPS® Ground"
  else s.serviceLevelDescription

/-- One carrier account step of get_valid_rates: look the service name up in
the ShipStation list of that account, price the primary ups account with the
three-percent upcharge, the walleted account verbatim. -/
def rate_entry (carrier : String) (tbl : List (String × ℤ)) (s : UpsService) :
    List UpsRate :=
  match pyDictGet tbl (ups_rate_name s) with
  | none => []
  | some r =>
    [{ carrierCode := carrier
       serviceCode := ups_rate_name s
       price := if carrier = "ups" then upcharge3 r else r
       deliveryDate := s.deliveryDate }]

/-- get_valid_rates of ups_api.py: for each service, the ups entry then the
ups_walleted entry, skipping services the ShipStation lists do not price. -/
def get_valid_rates (rates : UpsAccountRates) (valid_services : List UpsService) :
    List UpsRate :=
  valid_services.flatMap (fun s =>
    rate_entry "ups" rates.ups s ++ rate_entry "ups_walleted" rates.ups_walleted s)

/-- The index scan of remove_unviable_ground_saver: walking the option list,
whenever the current option is the Ground Saver, look at the next option
(IndexError when there is none) and, if it costs less than 30 cents over the
cheapest, record the next index as the winning index. -/
def rug_winning_index (cheapest_price : ℤ) :
    List UpsRate → ℕ → ℕ → Except String ℕ
  | [], _, wi => .ok wi
  | x :: rest, i, wi =>
    if x.serviceCode = "UPS Ground Saver" then
      match rest.head? with
      | none => .error "IndexError: list index out of range"
      | some nxt =>
        if nxt.price - cheapest_price < 30 then
          rug_winning_index cheapest_price rest (i + 1) (i + 1)
        else rug_winning_index cheapest_price rest (i + 1) wi
    else rug_winning_index cheapest_price rest (i + 1) wi

/-- remove_unviable_ground_saver of ups_api.py: drop everything before the
winning index when one was found (Python truthiness: index zero counts as
not found). -/
def remove_unviable_ground_saver (cheapest_price : ℤ)
    (sorted_options : List UpsRate) : Except String (List UpsRate) :=
  match rug_winning_index cheapest_price sorted_options 0 0 with
  | .error e => .error e
  | .ok wi => if wi ≠ 0 then .ok (sorted_options.drop wi) else .ok sorted_options

/-- The better_options set of filter_best_option in ups_api.py: the options
priced strictly above the cheapest by less than 35 cents, with no condition
on the delivery date. -/
def ups_better_options (cheapest : UpsRate) (rest : List UpsRate) : List UpsRate :=
  (cheapest :: rest).filter
    (fun o => 0 < o.price - cheapest.price ∧ o.price - cheapest.price < 35)

/-- filter_best_option of ups_api.py: the winner is the earliest-arriving
member of the better set, after the Ground Saver viability pass when the
cheapest option is the saver, the cheapest option otherwise.  The caller
hands over None instead of a list when no rate exists, making the first
subscript raise; that is the empty-list error case. -/
def filter_best_option (sorted_options : List UpsRate) : Except String UpsRate :=
  match sorted_options with
  | [] => .error "TypeError: NoneType is not subscriptable"
  | cheapest :: rest =>
    if ups_better_options cheapest rest ≠ [] ∧ cheapest.serviceCode = "UPS Ground Saver" then
      match remove_unviable_ground_saver cheapest.price (ups_better_options cheapest rest) with
      | .error e => .error e
      | .ok filtered =>
        match pyMinBy (fun x => x.deliveryDate) filtered with
        | some b => .ok b
        | none => .error "ValueError: min() arg is an empty sequence"
    else if ups_better_options cheapest rest ≠ [] then
      match pyMinBy (fun x => x.deliveryDate) (ups_better_options cheapest rest) with
      | some b => .ok b
      | none => .error "ValueError: min() arg is an empty sequence"
    else .ok cheapest

/-- The UPS selection pipeline of get_ups_best_rate, from the parsed
transit-time response to the chosen option: deadline filter, Ground Saver
synthesis for residential orders, ShipStation pricing, price sort, business
logic.  The returned option still carries its delivery date; the source pops
that key just before handing the winner out. -/
def ups_select (deliver_by_date : ℤ) (is_residential : Bool)
    (rates : UpsAccountRates) (services : List UpsService) :
    Except String UpsRate :=
  match (match is_residential with
         | true => add_ground_saver_to_list (get_valid_services deliver_by_date services)
         | false => .ok (get_valid_services deliver_by_date services)) with
  | .error e => .error e
  | .ok valid2 =>
    filter_best_option (pySortBy (fun x => x.price) (get_valid_rates rates valid2))

/-- get_ups_best_rate of ups_api.py, with the delivery date dropped from the
winner exactly as the source does before returning it. -/
def get_ups_best_rate (deliver_by_date : ℤ) (is_residential : Bool)
    (rates : UpsAccountRates) (services : List UpsService) :
    Except String BestRate :=
  (ups_select deliver_by_date is_residential rates services).map
    (fun r => { carrierCode := r.carrierCode, serviceCode := r.serviceCode, price := r.price })

/-- One FedEx shipping option after response normalization, the delivery
date already parsed (fedex_api.py keeps it as a datetime once
filter_valid_shipping_options has run). -/
structure FxOption where
  service_name : String
  price : ℤ
  delivery_date : ℤ
deriving DecidableEq, Repr

/-- filter_valid_shipping_options of fedex_api.py: keep the options arriving
on or before the deliver-by date. -/
def filter_valid_shipping_options (deliver_by_date : ℤ)
    (shipping_options : List FxOption) : List FxOption :=
  shipping_options.filter (fun o => o.delivery_date ≤ deliver_by_date)

/-- The better_options set of get_fedex_best_rate: options within 35 cents
of the cheapest that arrive strictly earlier than it. -/
def fedex_better_options (c : FxOption) (rest : List FxOption) : List FxOption :=
  (c :: rest).filter
    (fun o => o.price - c.price < 35 ∧ o.delivery_date < c.delivery_date)

/-- The option chosen by get_fedex_best_rate before the surcharge and
projection: deadline filter, price sort, then the earliest member of the
better set, with the cheapest option as fallback. -/
def fedex_select (deliver_by_date : ℤ) (shipping_options : List FxOption) :
    Option FxOption :=
  match pySortBy (fun x => x.price)
      (filter_valid_shipping_options deliver_by_date shipping_options) with
  | [] => none
  | c :: rest =>
    match pyMinBy (fun x => x.delivery_date) (fedex_better_options c rest) with
    | some b => some b
    | none => some c

/-- get_fedex_best_rate of fedex_api.py: None when the order carries no
fedex rates; the chosen option projected to carrier, service and price with
the three-percent lentics surcharge.  On an empty option list the smart-post
logging step of the source reads a variable no loop iteration assigned,
which raises before any selection happens. -/
def get_fedex_best_rate (store_name : String) (fedex_applicable : Bool)
    (deliver_by_date : ℤ) (shipping_options : List FxOption) :
    Except String (Option BestRate) :=
  if !fedex_applicable then .ok none
  else if shipping_options.isEmpty then
    .error "UnboundLocalError: smart_post_delivery_date"
  else
    .ok ((fedex_select deliver_by_date shipping_options).map (fun b =>
      { carrierCode := "fedex"
        serviceCode := b.service_name
        price := if store_name = "lentics" then upcharge3 b.price else b.price }))

/-- One formatted USPS option as built by format_valid_options of
usps_api.py: a dict with exactly the keys service_name, price and
delivery_date, the latter possibly None. -/
structure UspsOption where
  service_name : String
  price : ℤ
  delivery_date : Option ℤ
deriving DecidableEq, Repr

/-- Subscript access on a formatted USPS option dict for date-valued keys:
only the key delivery_date exists, every other key raises KeyError. -/
def usps_date_item (o : UspsOption) (key : String) : Except String ℤ :=
  if key = "delivery_date" then .ok (o.delivery_date.getD 0)
  else .error ("KeyError: " ++ key)

/-- Inner loop of pyMinKeyed carrying the best element and its key. -/
def pyMinKeyedGo {α : Type} (key : α → Except String ℤ) :
    List α → α → ℤ → Except String α
  | [], best, _ => .ok best
  | x :: xs, best, kb => do
    let kx ← key x
    if kx < kb then pyMinKeyedGo key xs x kx else pyMinKeyedGo key xs best kb

/-- Embedding of min(list, key=...) when the key function itself can raise:
the keys are evaluated in iteration order and the first failure propagates,
as in the Python builtin. -/
def pyMinKeyed {α : Type} (key : α → Except String ℤ) :
    List α → Except String α
  | [] => .error "ValueError: min() arg is an empty sequence"
  | h :: t => do
    let kh ← key h
    pyMinKeyedGo key t h kh

/-- compare_prices of usps_api.py: drop the options without a delivery date,
return None when nothing is left, otherwise sort by price and apply the
earlier-within-35-cents rule.  The winner of a non-empty better set is taken
with min keyed on the subscript deliveryDate, a key the option dicts do not
have, so that branch raises KeyError. -/
def compare_prices (formated_options : List UspsOption) :
    Except String (Option BestRate) :=
  let filtered_options := formated_options.filter (fun o => o.delivery_date ≠ none)
  match pySortBy (fun x => x.price) filtered_options with
  | [] => .ok none
  | c :: rest => do
    let better_options := (c :: rest).filter (fun o =>
      o.price - c.price < 35 ∧ o.delivery_date.getD 0 < c.delivery_date.getD 0)
    let best ← if better_options ≠ [] then
        pyMinKeyed (fun x => usps_date_item x "deliveryDate") better_options
      else pure c
    pure (some { carrierCode := "stamps_com", serviceCode := best.service_name,
                 price := best.price })

/-- The warehouse ids of the Stallion fulfillment source, which has no FedEx
contract (functions.py, get_champion_rate). -/
def stallion_warehouse_ids : List ℤ := [665600, 1097040]

/-- get_champion_rate of functions.py: gather the non-None per-carrier
winners, without the FedEx winner for Stallion warehouses, and assign the
minimum-price one to order.winning_rate.  An empty candidate list makes the
min builtin raise. -/
def get_champion_rate (order_warehouseId : ℤ)
    (ups_best usps_best fedex_best : Option BestRate) : Except String BestRate :=
  let list_of_rates :=
    if order_warehouseId ∉ stallion_warehouse_ids then
      [ups_best, usps_best, fedex_best].reduceOption
    else [ups_best, usps_best].reduceOption
  match pyMinBy (fun x => x.price) list_of_rates with
  | some champion => .ok champion
  | none => .error "ValueError: min() arg is an empty sequence"

/-- A box record of the lentics size tables: length, width, height and
weight in ounces, all in hundredths so the fractional table entries stay
exact. -/
structure Box where
  L : ℤ
  W : ℤ
  H : ℤ
  Ounces : ℤ
deriving DecidableEq, Repr

/-- The aggregate the Box-Sizing Resolver writes back onto the shipment:
length and width of the chosen box, stacked height, summed weight. -/
structure DimsResult where
  length : ℤ
  width : ℤ
  height : ℤ
  weight_oz : ℤ
deriving DecidableEq, Repr

/-- The Stallion size table of multi_dims_lentics (values in hundredths). -/
def stallion_mapping : List (String × Box) :=
  [ ("1218", ⟨1600, 2000, 200, 8000⟩)
  , ("1620", ⟨1900, 2500, 200, 9600⟩)
  , ("1236", ⟨2000, 3500, 200, 12800⟩)
  , ("1823", ⟨1900, 2500, 200, 9600⟩)
  , ("1824", ⟨1900, 2500, 200, 9600⟩)
  , ("2024", ⟨2300, 3100, 200, 9600⟩)
  , ("2026", ⟨2300, 3100, 200, 9600⟩)
  , ("2228", ⟨2300, 3100, 200, 9600⟩)
  , ("2325", ⟨2300, 3100, 200, 9600⟩)
  , ("2329", ⟨2300, 3100, 200, 9600⟩)
  , ("2335", ⟨2600, 3800, 200, 12800⟩)
  , ("2430", ⟨2600, 2800, 200, 12800⟩)
  , ("2435", ⟨2600, 2800, 200, 12800⟩)
  , ("2436", ⟨2600, 2800, 200, 12800⟩)
  , ("2638", ⟨4100, 2900, 200, 12800⟩)
  , ("2739", ⟨4100, 2900, 200, 12800⟩)
  , ("2839", ⟨4100, 2900, 200, 12800⟩)
  , ("2531", ⟨2600, 2800, 200, 12800⟩)
  , ("0810", ⟨1300, 1300, 100, 3200⟩) ]

/-- The Lentics size table of multi_dims_lentics (values in hundredths). -/
def lentics_mapping : List (String × Box) :=
  [ ("F1", ⟨2000, 1600, 150, 3200⟩)
  , ("P1", ⟨1300, 1800, 10, 800⟩)
  , ("P3", ⟨1700, 1700, 10, 800⟩)
  , ("F2", ⟨2800, 2400, 200, 9600⟩)
  , ("O2", ⟨1900, 1900, 150, 3800⟩) ]

/-- Embedding of str.find: index of the first occurrence, minus one when the
character does not occur. -/
def pyFind (s : String) (c : Char) : ℤ :=
  match s.toList.findIdx? (fun x => x = c) with
  | some i => (i : ℤ)
  | none => -1

/-- Embedding of the slice s[k:] for the non-negative indices the source
produces. -/
def pySliceFrom (s : String) (k : ℤ) : String :=
  String.mk (s.toList.drop k.toNat)

/-- Embedding of str.startswith, on the character lists so that it reduces
inside the kernel. -/
def pyStartsWith (s pre : String) : Bool :=
  pre.toList.isPrefixOf s.toList

/-- Embedding of the containment test c in s for a single character. -/
def pyContainsChar (s : String) (c : Char) : Bool :=
  s.toList.contains c

/-- The lentics size code: text[text.find(pipe) + 2:], the two characters
after the pipe separator skipped (slice from index one when no pipe). -/
def lentics_size_code (warehouse_location : String) : String :=
  pySliceFrom warehouse_location (pyFind warehouse_location '|' + 2)

/-- get_box_sizes of multi_dims_lentics: one table entry per unit of the
quantity when the size code is in the matching table, the empty list when it
is not.  An unmapped code therefore produces no entries at all, never a None
entry. -/
def get_box_sizes_lentics (quantity : ℕ) (warehouse_location : String) :
    List (Option Box) :=
  if pyStartsWith warehouse_location "ST" then
    let size_code := pySliceFrom warehouse_location 5
    if (pyDictGet stallion_mapping size_code).isSome then
      List.replicate quantity (pyDictGet stallion_mapping size_code)
    else []
  else
    let size_code := lentics_size_code warehouse_location
    if (pyDictGet lentics_mapping size_code).isSome then
      List.replicate quantity (pyDictGet lentics_mapping size_code)
    else []

/-- One line item as read by the lentics resolver: sku, quantity and the
warehouse-location field repurposed to carry the size code. -/
structure LenticsItem where
  sku : String
  quantity : ℕ
  warehouseLocation : String
deriving DecidableEq, Repr

/-- list_box_sizes of multi_dims_lentics: all items for a multi-order, the
first item for a double-order (IndexError on an empty item list), the empty
initial list when neither flag is set. -/
def lentics_list_box_sizes (is_multi is_double : Bool)
    (items : List LenticsItem) : Except String (List (Option Box)) :=
  if is_multi then
    .ok (items.flatMap (fun it => get_box_sizes_lentics it.quantity it.warehouseLocation))
  else if is_double then
    match items with
    | [] => .error "IndexError: list index out of range"
    | it :: _ => .ok (get_box_sizes_lentics it.quantity it.warehouseLocation)
  else .ok []

/-- multi_dims_lentics of functions.py: ok none is the False incomplete
signal, ok some carries the aggregate written onto the shipment.  The
biggest box is chosen by footprint, the sum of length and width; the max
builtin raises on an empty list. -/
def multi_dims_lentics (is_multi is_double : Bool) (items : List LenticsItem) :
    Except String (Option DimsResult) :=
  match lentics_list_box_sizes is_multi is_double items with
  | .error e => .error e
  | .ok list_of_box_sizes =>
  if none ∈ list_of_box_sizes then .ok none
  else
    let boxes := list_of_box_sizes.reduceOption
    match pyMaxBy (fun b => b.L + b.W) boxes with
    | none => .error "ValueError: max() arg is an empty sequence"
    | some biggest_box =>
      .ok (some { length := biggest_box.L
                  width := biggest_box.W
                  height := (boxes.map (fun b => b.H)).sum
                  weight_oz := (boxes.map (fun b => b.Ounces)).sum })

/-- A nuveau size tuple (L, W, H, Weight): index zero is the length, minus
one the weight, minus two the height.  Values in hundredths. -/
structure NBox where
  idx0 : ℤ
  idx1 : ℤ
  idx2 : ℤ
  idx3 : ℤ
deriving DecidableEq, Repr

/-- The Billy Bass sku list of multi_dims_nuveau. -/
def list_of_billyBass_skus : List String :=
  [ "M-BBass 2", "Billy Bass 02", "Gemmy01", "Gemmy03"
  , "Gemmy Big Mouth Billy Bass 3", "Gemmy BBass3", "M-BBass"
  , "Billy Bass Original", "L-BBass1", "L-BBass2", "L-BBass3" ]

/-- The fresh stool sku list of multi_dims_nuveau. -/
def list_of_fresh_stools : List String :=
  [ "Gel Replacment 8 Pack", "FS-Black", "FS- White + 4 Gels", "FS- White"
  , "FS- Pink", "FS- Gray", "FS- Blue", "FS- Black", "FS - White"
  , "FS - Pink + 4 Gels", "FS - Pink", "FS - Gray + 4 Gels", "FS - Gray"
  , "FS - Blue + 4 Gels", "FS - Blue", "FS - Black" ]

/-- The sku-prefix dimension table of multi_dims_nuveau (hundredths). -/
def dimensions_to_sku_mapping : List (String × NBox) :=
  [ ("P1", ⟨1300, 1800, 10, 800⟩)
  , ("P2", ⟨1300, 1800, 10, 800⟩)
  , ("F1", ⟨2200, 1500, 150, 4000⟩)
  , ("T1", ⟨2200, 1650, 150, 5000⟩)
  , ("F2", ⟨2800, 2200, 150, 8000⟩)
  , ("T2", ⟨2800, 2200, 150, 8000⟩)
  , ("F3", ⟨4100, 2900, 200, 17600⟩)
  , ("T3", ⟨4100, 2900, 200, 19200⟩)
  , ("O2", ⟨2100, 2000, 150, 4800⟩)
  , ("O3", ⟨2800, 2700, 150, 9600⟩)
  , ("O4", ⟨2100, 2900, 150, 13600⟩)
  , ("BB", ⟨1250, 850, 450, 3200⟩)
  , ("FS", ⟨1575, 875, 325, 3200⟩) ]

/-- Embedding of the slice sku[:2]. -/
def pySliceTake2 (s : String) : String :=
  String.mk (s.toList.take 2)

/-- get_box_sizes of multi_dims_nuveau.  Billy Bass skus first collect the
BB entry per unit; fresh stool skus append the FS entry once, but the
gel-bundle variants containing a plus sign mutate a tuple in place, which
raises; every sku not in the fresh stool list (Billy Bass ones included)
additionally collects the entry for its two-character prefix per unit, with
None when the prefix is unmapped. -/
def get_box_sizes_nuveau (sku : String) (quantity : ℕ) :
    Except String (List (Option NBox)) :=
  let box_sizes := if sku ∈ list_of_billyBass_skus then
      List.replicate quantity (pyDictGet dimensions_to_sku_mapping "BB")
    else []
  if sku ∈ list_of_fresh_stools then
    if pyContainsChar sku '+' then
      .error "TypeError: tuple does not support item assignment"
    else .ok (box_sizes ++ [pyDictGet dimensions_to_sku_mapping "FS"])
  else
    .ok (box_sizes ++
      List.replicate quantity (pyDictGet dimensions_to_sku_mapping (pySliceTake2 sku)))

/-- One line item as read by the nuveau resolver. -/
structure NuveauItem where
  sku : String
  quantity : ℕ
deriving DecidableEq, Repr

/-- The multi-order loop of multi_dims_nuveau: the per-item box lists
concatenated in item order, the first raising item aborting the loop. -/
def nuveauBoxes : List NuveauItem → Except String (List (Option NBox))
  | [] => .ok []
  | it :: rest =>
    match get_box_sizes_nuveau it.sku it.quantity with
    | .error e => .error e
    | .ok bs =>
      match nuveauBoxes rest with
      | .error e => .error e
      | .ok rs => .ok (bs ++ rs)

/-- list_box_sizes of multi_dims_nuveau: all items for a multi-order, the
first item for a double-order, a RuntimeError when neither flag is set. -/
def nuveau_list_box_sizes (is_multi is_double : Bool)
    (items : List NuveauItem) : Except String (List (Option NBox)) :=
  if is_multi then nuveauBoxes items
  else if is_double then
    match items with
    | [] => .error "IndexError: list index out of range"
    | it :: _ => get_box_sizes_nuveau it.sku it.quantity
  else .error "RuntimeError: class attributes not set correctly"

/-- multi_dims_nuveau of functions.py: same shape as the lentics resolver,
except that the biggest box is chosen by index zero alone, the length,
ignoring the width. -/
def multi_dims_nuveau (is_multi is_double : Bool) (items : List NuveauItem) :
    Except String (Option DimsResult) :=
  match nuveau_list_box_sizes is_multi is_double items with
  | .error e => .error e
  | .ok l =>
  if none ∈ l then .ok none
  else
    let boxes := l.reduceOption
    match pyMaxBy (fun b => b.idx0) boxes with
    | none => .error "ValueError: max() arg is an empty sequence"
    | some biggest_box =>
      .ok (some { length := biggest_box.idx0
                  width := biggest_box.idx1
                  height := (boxes.map (fun b => b.idx2)).sum
                  weight_oz := (boxes.map (fun b => b.idx3)).sum })

/-- A raw order line item with the fields the counting and payload logic
reads. -/
structure RawItem where
  name : String
  quantity : ℕ
  adjustment : Bool
deriving DecidableEq, Repr

/-- The items_list attribute set in Shipment: the raw item list with the
adjustment lines filtered out. -/
def shipment_items_list (raw_items_list : List RawItem) : List RawItem :=
  raw_items_list.filter (fun item => item.adjustment = false)

/-- check_if_multi_order of functions.py applied to Shipment.items_list:
multi when more than one item remains, double when the first remaining item
has quantity above one (IndexError when the filtered list is empty). -/
def check_if_multi_order (items_list : List RawItem) :
    Except String (Bool × Bool) :=
  match items_list with
  | [] => .error "IndexError: list index out of range"
  | first :: _ => .ok (items_list.length > 1, first.quantity > 1)

/-- The items field of the write-back payload built by
set_payload_for_update_order: it reads order.Shipment.items_list, the
filtered list, not the raw one. -/
def payload_items (raw_items_list : List RawItem) : List RawItem :=
  shipment_items_list raw_items_list

/-- An order-platform API response as seen by the rate-limit hook: whether
the body parses as JSON, and the two rate-limit headers already converted to
integers when present. -/
structure SSResponse where
  is_json : Bool
  remaining : Option ℤ
  reset : Option ℤ
deriving DecidableEq, Repr

/-- The sleep performed by the api_calls response hook of the ShipStation
client before it returns the response (and hence before the session can
issue another request): a fixed five seconds on a body that is not JSON, the
reset-header duration (five seconds when that header is absent) when the
remaining-calls header is at most two, a fixed two seconds when the headers
are missing, and no sleep otherwise. -/
def api_calls_sleep (r : SSResponse) : Option ℤ :=
  if r.is_json = false then some 5
  else
    match r.remaining with
    | some calls_left =>
      if calls_left ≤ 2 then
        some (match r.reset with | none => 5 | some t => t)
      else none
    | none => some 2

/-- The running fold of pyMinBy stays inside the candidate list. -/
theorem foldl_min_mem {α : Type} (key : α → ℤ) (h : α) (t : List α) :
    t.foldl (fun b x => if key x < key b then x else b) h ∈ h :: t := by
  induction t generalizing h with
  | nil => simp
  | cons y ys ih =>
    simp only [List.foldl]
    have h1 := ih (if key y < key h then y else h)
    rcases List.mem_cons.mp h1 with h2 | h2
    · rw [h2]
      split
      · exact List.mem_cons_of_mem _ (List.mem_cons_self _ _)
      · exact List.mem_cons_self _ _
    · exact List.mem_cons_of_mem _ (List.mem_cons_of_mem _ h2)

/-- The running fold of pyMinBy has a key at most every candidate key. -/
theorem foldl_min_le {α : Type} (key : α → ℤ) (h : α) (t : List α) :
    key (t.foldl (fun b x => if key x < key b then x else b) h) ≤ key h ∧
      ∀ x ∈ t, key (t.foldl (fun b x => if key x < key b then x else b) h) ≤ key x := by
  induction t generalizing h with
  | nil => exact ⟨le_refl _, by simp⟩
  | cons y ys ih =>
    simp only [List.foldl]
    have h1 := ih (if key y < key h then y else h)
    have hy : key (if key y < key h then y else h) ≤ key h ∧
        key (if key y < key h then y else h) ≤ key y := by
      split
      · exact ⟨le_of_lt (by assumption), le_refl _⟩
      · exact ⟨le_refl _, le_of_not_lt (by assumption)⟩
    refine ⟨le_trans h1.1 hy.1, ?_⟩
    intro x hx
    rcases List.mem_cons.mp hx with rfl | hx
    · exact le_trans h1.1 hy.2
    · exact h1.2 x hx

/-- A pyMinBy result is a member of its input list. -/
theorem pyMinBy_mem {α : Type} (key : α → ℤ) {l : List α} {m : α}
    (h : pyMinBy key l = some m) : m ∈ l := by
  cases l with
  | nil => simp [pyMinBy] at h
  | cons x xs =>
    simp only [pyMinBy, Option.some.injEq] at h
    rw [← h]
    exact foldl_min_mem key x xs

/-- A pyMinBy result has minimal key. -/
theorem pyMinBy_le {α : Type} (key : α → ℤ) {l : List α} {m : α}
    (h : pyMinBy key l = some m) : ∀ x ∈ l, key m ≤ key x := by
  cases l with
  | nil => simp [pyMinBy] at h
  | cons y ys =>
    simp only [pyMinBy, Option.some.injEq] at h
    intro x hx
    rcases List.mem_cons.mp hx with rfl | hx
    · rw [← h]; exact (foldl_min_le key x ys).1
    · rw [← h]; exact (foldl_min_le key y ys).2 x hx

/-- pyMinBy is none exactly on the empty list. -/
theorem pyMinBy_eq_none {α : Type} (key : α → ℤ) {l : List α}
    (h : pyMinBy key l = none) : l = [] := by
  cases l with
  | nil => rfl
  | cons y ys => simp [pyMinBy] at h

/-- Claim C1.  The claim states that all three per-carrier selectors compute
the better set as the options strictly cheaper in arrival with a price
premium under 35 cents, and return its earliest-arriving member when it is
non-empty.  The code diverges twice.  First conjunct: the USPS
compare_prices takes its min with the key deliveryDate on dicts whose only
date key is delivery_date, so whenever the better set is non-empty (options
A at 10.00 arriving day two, B at 10.20 arriving day one make better = B) it
raises KeyError instead of returning B.  Second conjunct: the UPS
filter_best_option builds the better set without any delivery-date
condition, so on options X at 10.00 arriving day five and Y at 10.20
arriving day six the claim makes better empty and the winner X, while the
code returns Y, a later-arriving strictly costlier option. -/
theorem claim1_selector_divergence :
    compare_prices
        [⟨"USPS Priority Mail - Package", 1000, some 2880⟩,
         ⟨"USPS Priority Mail Express - Package", 1020, some 1440⟩]
      = .error "KeyError: deliveryDate"
    ∧ filter_best_option
        [⟨"ups", "UPS® Ground", 1000, 7200⟩,
         ⟨"ups", "UPS 2nd Day Air®", 1020, 8640⟩]
      = .ok ⟨"ups", "UPS 2nd Day Air®", 1020, 8640⟩ := by
  exact ⟨rfl, rfl⟩

/-- Claim C4.  The claim states the Ground Saver is synthesized whenever a
UPS Ground service is present, regardless of its position.  In
add_ground_saver_to_list of ups_api.py the loop overwrites the candidate
with None on every later non-Ground service, so with Ground first and
Next Day Air second no saver is appended (first conjunct), while the
rewritten UPSService version of the same routine appends exactly the
claimed saver, Ground plus one day with the weekday advanced from Friday to
Saturday (second conjunct). -/
theorem claim4_saver_position_divergence :
    add_ground_saver_to_list
        [⟨"GND", "UPS Ground", 3, 142560, "FRI"⟩,
         ⟨"1DA", "UPS Next Day Air", 1, 141120, "THU"⟩]
      = .ok [⟨"GND", "UPS Ground", 3, 142560, "FRI"⟩,
             ⟨"1DA", "UPS Next Day Air", 1, 141120, "THU"⟩]
    ∧ upsServiceAddGroundSaver
        [⟨"GND", "UPS Ground", 3, 142560, "FRI"⟩,
         ⟨"1DA", "UPS Next Day Air", 1, 141120, "THU"⟩]
      = [⟨"GND", "UPS Ground", 3, 142560, "FRI"⟩,
         ⟨"1DA", "UPS Next Day Air", 1, 141120, "THU"⟩,
         ⟨"GNS", "UPS Ground Saver", 4, 144000, "SAT"⟩] := by
  exact ⟨rfl, rfl⟩

/-- Claim C5.  The claim states both resolvers answer the incomplete signal
False when any item is unmapped.  For lentics the unmapped size code Z9
contributes no entries at all, the None check never fires, and the resolver
returns True with the aggregate of the single mapped F1 item (first
conjunct), silently computing from the mapped items only.  The nuveau twin
does append None for an unmapped prefix and returns the claimed False
(second conjunct). -/
theorem claim5_lentics_silent_partial :
    multi_dims_lentics true false
        [⟨"LF1", 1, "Lentics | F1"⟩, ⟨"LZ9", 1, "Lentics | Z9"⟩]
      = .ok (some ⟨2000, 1600, 150, 3200⟩)
    ∧ multi_dims_nuveau true false [⟨"P1-foo", 1⟩, ⟨"ZZ-bar", 1⟩] = .ok none := by
  exact ⟨rfl, rfl⟩

/-- Claim C7, counterexample.  The claim states that on an empty candidate
set the Champion Selector returns nothing actionable rather than crashing;
with only a FedEx winner and a Stallion warehouse the code instead raises
ValueError out of the min builtin. -/
theorem claim7_empty_crash :
    get_champion_rate 665600 none none (some ⟨"fedex", "FedEx Home Delivery®", 700⟩)
      = .error "ValueError: min() arg is an empty sequence" := by
  exact rfl

/-- Claim C7 as amended: whenever the candidate list is empty, the selector
raises the ValueError of the min builtin, so no winning rate is set and the
failure is an exception, not a quiet return. -/
theorem claim7_empty_amended (w : ℤ) (u s f : Option BestRate)
    (h : (if w ∉ stallion_warehouse_ids then [u, s, f].reduceOption
          else [u, s].reduceOption) = []) :
    get_champion_rate w u s f = .error "ValueError: min() arg is an empty sequence" := by
  simp only [get_champion_rate, h, pyMinBy]

/-- Witness for the amended C7 at a non-Stallion warehouse with no winners. -/
theorem claim7_empty_amended_witness :
    get_champion_rate 12345 none none none
      = .error "ValueError: min() arg is an empty sequence" :=
  claim7_empty_amended 12345 none none none (by decide)

/-- Claim C3.  For a Stallion warehouse the candidate list is the non-absent
UPS and USPS winners only, FedEx excluded even when globally cheapest;
otherwise all three non-absent winners; and on a non-empty candidate list
the function succeeds with a member of minimal price, which the source
assigns to order.winning_rate. -/
theorem claim3_champion_spec (w : ℤ) (u s f : Option BestRate)
    (cands : List BestRate)
    (hc : cands = if w ∉ stallion_warehouse_ids then [u, s, f].reduceOption
          else [u, s].reduceOption)
    (hne : cands ≠ []) :
    ∃ r, get_champion_rate w u s f = .ok r ∧ r ∈ cands ∧
      ∀ x ∈ cands, r.price ≤ x.price := by
  subst hc
  simp only [get_champion_rate]
  cases hm : pyMinBy (fun x => x.price)
      (if w ∉ stallion_warehouse_ids then [u, s, f].reduceOption
       else [u, s].reduceOption) with
  | none => exact absurd (pyMinBy_eq_none _ hm) hne
  | some m =>
    exact ⟨m, rfl, pyMinBy_mem _ hm, pyMinBy_le _ hm⟩

/-- Witness for C3: Stallion warehouse, FedEx the global cheapest at 7.00,
UPS at 8.00, USPS at 9.00; the champion is drawn from the UPS and USPS
candidates only. -/
theorem claim3_champion_spec_witness :
    ∃ r, get_champion_rate 665600
        (some ⟨"ups", "UPS® Ground", 800⟩)
        (some ⟨"stamps_com", "USPS Priority Mail - Package", 900⟩)
        (some ⟨"fedex", "FedEx Home Delivery®", 700⟩) = .ok r
      ∧ r ∈ [⟨"ups", "UPS® Ground", 800⟩,
             ⟨"stamps_com", "USPS Priority Mail - Package", 900⟩]
      ∧ ∀ x ∈ ([⟨"ups", "UPS® Ground", 800⟩,
             ⟨"stamps_com", "USPS Priority Mail - Package", 900⟩] : List BestRate),
          r.price ≤ x.price :=
  claim3_champion_spec 665600 _ _ _ _ (by decide) (by decide)

/-- Claim C8, counterexample.  The claim states adjustment items are
retained in the items list of the write-back payload; the payload reads the
filtered Shipment.items_list, so the adjustment line is absent from it. -/
theorem claim8_payload_counterexample :
    payload_items [⟨"art print", 1, false⟩, ⟨"promo discount", 1, true⟩]
        = [⟨"art print", 1, false⟩]
    ∧ (⟨"promo discount", 1, true⟩ : RawItem)
        ∉ payload_items [⟨"art print", 1, false⟩, ⟨"promo discount", 1, true⟩] := by
  exact ⟨rfl, by decide⟩

/-- Claim C8 as amended: adjustment items are excluded both from the counts
behind is_multi_order and is_double_order and from the payload items list
(they survive only on the raw_items_list attribute, which the payload does
not read): the payload list carries exactly the non-adjustment items, and
appending an adjustment line never changes the computed flags. -/
theorem claim8_adjustments_amended (raw : List RawItem) (adj : RawItem)
    (hadj : adj.adjustment = true) :
    (∀ i ∈ payload_items raw, i.adjustment = false)
    ∧ (∀ i ∈ raw, i.adjustment = false → i ∈ payload_items raw)
    ∧ check_if_multi_order (shipment_items_list (raw ++ [adj]))
        = check_if_multi_order (shipment_items_list raw) := by
  refine ⟨?_, ?_, ?_⟩
  · intro i hi
    simpa using (List.mem_filter.mp hi).2
  · intro i hi h0
    exact List.mem_filter.mpr ⟨hi, by simp [h0]⟩
  · have h : shipment_items_list (raw ++ [adj]) = shipment_items_list raw := by
      simp [shipment_items_list, List.filter_append, hadj]
    rw [h]

/-- Witness for the amended C8 on a two-line order with one fee line. -/
theorem claim8_adjustments_amended_witness :
    ((⟨"art print", 2, false⟩ : RawItem)
        ∈ payload_items [⟨"art print", 2, false⟩, ⟨"promo fee", 1, true⟩])
    ∧ check_if_multi_order (shipment_items_list
        ([⟨"art print", 2, false⟩] ++ [⟨"promo fee", 1, true⟩]))
        = check_if_multi_order (shipment_items_list [⟨"art print", 2, false⟩]) :=
  ⟨(claim8_adjustments_amended [⟨"art print", 2, false⟩, ⟨"promo fee", 1, true⟩]
      ⟨"promo fee", 1, true⟩ rfl).2.1 _ (by decide) rfl,
   (claim8_adjustments_amended [⟨"art print", 2, false⟩]
      ⟨"promo fee", 1, true⟩ rfl).2.2⟩

/-- Claim C9, counterexample.  The claim states that on any response with
at most two remaining calls the client sleeps for the reset-header duration;
on a response whose body is not JSON the early-return path sleeps a fixed
five seconds instead, here against a reset header of thirty. -/
theorem claim9_nonjson_counterexample :
    api_calls_sleep ⟨false, some 1, some 30⟩ = some 5
    ∧ api_calls_sleep ⟨false, some 1, some 30⟩ ≠ some 30 := by
  exact ⟨rfl, by decide⟩

/-- Claim C9 as amended: with at most two remaining calls the hook always
sleeps before returning (so the session never issues the next request
without a sleep), and when the body is JSON and the reset header is present
the sleep is exactly the reset duration. -/
theorem claim9_ratelimit_amended (r : SSResponse) (n : ℤ)
    (hr : r.remaining = some n) (hn : n ≤ 2) :
    (api_calls_sleep r).isSome = true
    ∧ (∀ t, r.is_json = true → r.reset = some t → api_calls_sleep r = some t) := by
  obtain ⟨j, rem, rst⟩ := r
  simp only [SSResponse.remaining] at hr
  subst hr
  cases j with
  | false => exact ⟨rfl, by intro t hj _; cases hj⟩
  | true =>
    refine ⟨?_, ?_⟩
    · simp [api_calls_sleep, hn]
    · intro t _ hrst
      simp only [SSResponse.reset] at hrst
      subst hrst
      simp [api_calls_sleep, hn]

/-- Witness for the amended C9: a JSON response with two calls remaining and
a forty-second reset sleeps exactly forty seconds. -/
theorem claim9_ratelimit_amended_witness :
    (api_calls_sleep ⟨true, some 2, some 40⟩).isSome = true
    ∧ api_calls_sleep ⟨true, some 2, some 40⟩ = some 40 :=
  ⟨(claim9_ratelimit_amended ⟨true, some 2, some 40⟩ 2 rfl (by decide)).1,
   (claim9_ratelimit_amended ⟨true, some 2, some 40⟩ 2 rfl (by decide)).2 40 rfl rfl⟩

/-- Claim C10.  For the lentics store get_fedex_best_rate returns the chosen
option priced with the three-percent upcharge rounded to whole cents (the
rounding being within half a cent of exactly 1.03 times the price), and for
every other store the chosen price unchanged. -/
theorem claim10_fedex_surcharge (ddl : ℤ) (opts : List FxOption) (o : FxOption)
    (hsel : fedex_select ddl opts = some o) (hne : opts ≠ []) :
    get_fedex_best_rate "lentics" true ddl opts
        = .ok (some ⟨"fedex", o.service_name, upcharge3 o.price⟩)
    ∧ (∀ store, store ≠ "lentics" →
        get_fedex_best_rate store true ddl opts
          = .ok (some ⟨"fedex", o.service_name, o.price⟩))
    ∧ (∀ p : ℤ, 103 * p - 50 ≤ 100 * upcharge3 p ∧ 100 * upcharge3 p ≤ 103 * p + 50) := by
  have hemp : opts.isEmpty = false := by
    cases opts with
    | nil => exact absurd rfl hne
    | cons a l => rfl
  refine ⟨?_, ?_, ?_⟩
  · simp [get_fedex_best_rate, hemp, hsel]
  · intro store hstore
    simp [get_fedex_best_rate, hemp, hsel, hstore]
  · intro p
    simp only [upcharge3, py_round_half_even]
    split_ifs <;> omega

/-- Witness for C10: FedEx Ground at 8.75 becomes 9.01 for lentics (8.75
times 1.03 is 9.0125, rounded to 9.01) and stays 8.75 for nuveau. -/
theorem claim10_fedex_surcharge_witness :
    get_fedex_best_rate "lentics" true 10000 [⟨"FedEx Ground®", 875, 8640⟩]
        = .ok (some ⟨"fedex", "FedEx Ground®", upcharge3 875⟩)
    ∧ get_fedex_best_rate "nuveau" true 10000 [⟨"FedEx Ground®", 875, 8640⟩]
        = .ok (some ⟨"fedex", "FedEx Ground®", 875⟩) :=
  ⟨(claim10_fedex_surcharge 10000 [⟨"FedEx Ground®", 875, 8640⟩]
      ⟨"FedEx Ground®", 875, 8640⟩ rfl (by decide)).1,
   (claim10_fedex_surcharge 10000 [⟨"FedEx Ground®", 875, 8640⟩]
      ⟨"FedEx Ground®", 875, 8640⟩ rfl (by decide)).2.1 "nuveau" (by decide)⟩


/-- Insertion preserves the elements. -/
theorem mem_pyInsertBy {α : Type} (key : α → ℤ) (x a : α) (l : List α) :
    a ∈ pyInsertBy key x l ↔ a = x ∨ a ∈ l := by
  induction l with
  | nil => simp [pyInsertBy]
  | cons y ys ih =>
    simp only [pyInsertBy]
    split
    · rw [List.mem_cons, ih, List.mem_cons]
      tauto
    · rw [List.mem_cons, List.mem_cons]

/-- Sorting preserves the elements. -/
theorem mem_pySortBy {α : Type} (key : α → ℤ) (a : α) (l : List α) :
    a ∈ pySortBy key l ↔ a ∈ l := by
  induction l with
  | nil => simp [pySortBy]
  | cons x xs ih =>
    simp only [pySortBy]
    rw [mem_pyInsertBy, ih, List.mem_cons]

/-- The better set is carved out of the sorted option list. -/
theorem ups_better_subset (c : UpsRate) (rest : List UpsRate) :
    ups_better_options c rest ⊆ c :: rest :=
  fun _x hx => (List.mem_filter.mp hx).1

/-- The FedEx better set is carved out of the sorted option list. -/
theorem fedex_better_subset (c : FxOption) (rest : List FxOption) :
    fedex_better_options c rest ⊆ c :: rest :=
  fun _x hx => (List.mem_filter.mp hx).1

/-- The Ground Saver viability pass only drops a prefix: its output is a
sub-collection of its input. -/
theorem remove_unviable_subset {p : ℤ} {l out : List UpsRate}
    (h : remove_unviable_ground_saver p l = .ok out) : out ⊆ l := by
  unfold remove_unviable_ground_saver at h
  cases hwi : rug_winning_index p l 0 0 with
  | error e => rw [hwi] at h; cases h
  | ok wi =>
    rw [hwi] at h
    dsimp only at h
    by_cases h0 : wi ≠ 0
    · rw [if_pos h0] at h
      cases h
      exact List.drop_subset _ _
    · rw [if_neg h0] at h
      cases h
      exact fun x hx => hx

/-- A successful filter_best_option returns a member of its input list. -/
theorem filter_best_option_mem {l : List UpsRate} {r : UpsRate}
    (h : filter_best_option l = .ok r) : r ∈ l := by
  cases l with
  | nil => cases h
  | cons c rest =>
    simp only [filter_best_option] at h
    split at h
    · cases hru : remove_unviable_ground_saver c.price (ups_better_options c rest) with
      | error e => rw [hru] at h; cases h
      | ok filtered =>
        rw [hru] at h
        dsimp only at h
        cases hmin : pyMinBy (fun x => x.deliveryDate) filtered with
        | none => rw [hmin] at h; cases h
        | some b =>
          rw [hmin] at h
          cases h
          exact ups_better_subset c rest (remove_unviable_subset hru (pyMinBy_mem _ hmin))
    · split at h
      · cases hmin : pyMinBy (fun x => x.deliveryDate) (ups_better_options c rest) with
        | none => rw [hmin] at h; cases h
        | some b =>
          rw [hmin] at h
          cases h
          exact ups_better_subset c rest (pyMinBy_mem _ hmin)
      · cases h
        exact List.mem_cons_self _ _

/-- Every rate produced for one service carries the delivery date of that
service, under the ShipStation name of the service. -/
theorem rate_entry_mem {carrier : String} {tbl : List (String × ℤ)}
    {s : UpsService} {r : UpsRate} (h : r ∈ rate_entry carrier tbl s) :
    r.deliveryDate = s.deliveryDate ∧ r.serviceCode = ups_rate_name s := by
  unfold rate_entry at h
  cases hg : pyDictGet tbl (ups_rate_name s) with
  | none => rw [hg] at h; cases h
  | some v =>
    rw [hg] at h
    rcases List.mem_singleton.mp h with rfl
    exact ⟨rfl, rfl⟩

/-- Every priced rate originates from one of the services handed to
get_valid_rates. -/
theorem get_valid_rates_mem {rates : UpsAccountRates} {vs : List UpsService}
    {r : UpsRate} (h : r ∈ get_valid_rates rates vs) :
    ∃ s ∈ vs, r.deliveryDate = s.deliveryDate ∧ r.serviceCode = ups_rate_name s := by
  unfold get_valid_rates at h
  rcases List.mem_flatMap.mp h with ⟨s, hs, hmem⟩
  rcases List.mem_append.mp hmem with hmem | hmem
  · exact ⟨s, hs, rate_entry_mem hmem⟩
  · exact ⟨s, hs, rate_entry_mem hmem⟩

/-- The saver always carries the Ground Saver description. -/
theorem mkGroundSaver_desc (s : UpsService) :
    (mkGroundSaver s).serviceLevelDescription = "UPS Ground Saver" := by
  unfold mkGroundSaver
  split <;> rfl

/-- If the overwritten loop accumulator ends as a saver, that saver was
built from some list element (unless it was the starting value). -/
theorem ground_saver_foldl {l : List UpsService} {a : GroundSaverAcc} {g : UpsService}
    (h : l.foldl
      (fun _a s =>
        if s.serviceLevelDescription = "UPS Ground" then
          GroundSaverAcc.saver (mkGroundSaver s)
        else GroundSaverAcc.pyNone) a = GroundSaverAcc.saver g) :
    a = GroundSaverAcc.saver g ∨ ∃ x ∈ l, g = mkGroundSaver x := by
  induction l generalizing a with
  | nil => exact Or.inl h
  | cons y ys ih =>
    rcases ih h with h1 | ⟨x, hx, hgx⟩
    · dsimp only at h1
      split at h1
      · injection h1 with h2
        exact Or.inr ⟨y, List.mem_cons_self _ _, h2.symm⟩
      · cases h1
    · exact Or.inr ⟨x, List.mem_cons_of_mem _ hx, hgx⟩

/-- Everything in a successful add_ground_saver_to_list output is either an
input service or carries the Ground Saver description. -/
theorem add_ground_saver_mem {l l' : List UpsService} {s : UpsService}
    (h : add_ground_saver_to_list l = .ok l') (hs : s ∈ l') :
    s ∈ l ∨ s.serviceLevelDescription = "UPS Ground Saver" := by
  unfold add_ground_saver_to_list at h
  cases hacc : l.foldl
      (fun _a s =>
        if s.serviceLevelDescription = "UPS Ground" then
          GroundSaverAcc.saver (mkGroundSaver s)
        else GroundSaverAcc.pyNone) GroundSaverAcc.emptyDict with
  | emptyDict => rw [hacc] at h; cases h
  | pyNone => rw [hacc] at h; cases h; exact Or.inl hs
  | saver g =>
    rw [hacc] at h
    cases h
    rcases List.mem_append.mp hs with hs | hs
    · exact Or.inl hs
    · rcases List.mem_singleton.mp hs with rfl
      rcases ground_saver_foldl hacc with h1 | ⟨x, _, hgx⟩
      · cases h1
      · rw [hgx]
        exact Or.inr (mkGroundSaver_desc x)

/-- Services surviving the deadline filter arrive on time. -/
theorem get_valid_services_le {d : ℤ} {svcs : List UpsService} {s : UpsService}
    (h : s ∈ get_valid_services d svcs) : s.deliveryDate ≤ d := by
  unfold get_valid_services at h
  simpa using (List.mem_filter.mp h).2

/-- Claim C2, counterexample.  The claim states no selector ever returns an
option arriving after the deliver-by date, the synthesized Ground Saver
included.  With a deadline at 18:00 of day 99 and UPS Ground arriving day
99 (deadline-qualifying), the residential pipeline synthesizes the saver at
day 100, prices it cheapest, and returns it: the chosen option arrives
after the deadline. -/
theorem claim2_saver_misses_deadline :
    ups_select 143640 true ⟨[], [("UPS® Ground", 1000), ("UPS Ground Saver", 800)]⟩
        [⟨"GND", "UPS Ground", 3, 142560, "FRI"⟩]
      = .ok ⟨"ups_walleted", "UPS Ground Saver", 800, 144000⟩
    ∧ (143640 : ℤ) < 144000 := by
  exact ⟨rfl, by decide⟩

/-- Claim C2 as amended: the FedEx selector never returns an option arriving
after the deliver-by date, and the UPS selector never does so either except
possibly for the synthesized UPS Ground Saver option, which is created by
adding days after the deadline filter has run and is not re-filtered. -/
theorem claim2_deadline_amended :
    (∀ (ddl : ℤ) (opts : List FxOption) (o : FxOption),
      fedex_select ddl opts = some o → o.delivery_date ≤ ddl)
    ∧ (∀ (ddl : ℤ) (res : Bool) (rates : UpsAccountRates)
        (svcs : List UpsService) (r : UpsRate),
        ups_select ddl res rates svcs = .ok r →
        r.serviceCode = "UPS Ground Saver" ∨ r.deliveryDate ≤ ddl) := by
  constructor
  · intro ddl opts o h
    unfold fedex_select at h
    cases hs : pySortBy (fun x => x.price)
        (filter_valid_shipping_options ddl opts) with
    | nil => rw [hs] at h; cases h
    | cons c rest =>
      rw [hs] at h
      dsimp only at h
      have hmem : o ∈ c :: rest := by
        cases hmin : pyMinBy (fun x => x.delivery_date) (fedex_better_options c rest) with
        | none =>
          rw [hmin] at h
          cases h
          exact List.mem_cons_self _ _
        | some b =>
          rw [hmin] at h
          cases h
          exact fedex_better_subset c rest (pyMinBy_mem _ hmin)
      have hval : o ∈ filter_valid_shipping_options ddl opts := by
        rw [← mem_pySortBy (fun x => x.price), hs]
        exact hmem
      unfold filter_valid_shipping_options at hval
      simpa using (List.mem_filter.mp hval).2
  · intro ddl res rates svcs r h
    have main : ∀ v2 : List UpsService,
        (∀ s ∈ v2, s ∈ get_valid_services ddl svcs ∨
          s.serviceLevelDescription = "UPS Ground Saver") →
        filter_best_option (pySortBy (fun x => x.price) (get_valid_rates rates v2))
            = .ok r →
        r.serviceCode = "UPS Ground Saver" ∨ r.deliveryDate ≤ ddl := by
      intro v2 hv2 hfbo
      have hr1 : r ∈ get_valid_rates rates v2 := by
        rw [← mem_pySortBy (fun x => x.price)]
        exact filter_best_option_mem hfbo
      rcases get_valid_rates_mem hr1 with ⟨s, hs, hdate, hcode⟩
      rcases hv2 s hs with hvalid | hsaver
      · exact Or.inr (hdate ▸ get_valid_services_le hvalid)
      · left
        rw [hcode]
        unfold ups_rate_name
        rw [hsaver]
        rfl
    unfold ups_select at h
    cases res with
    | false => exact main _ (fun s hs => Or.inl hs) h
    | true =>
      cases hadd : add_ground_saver_to_list (get_valid_services ddl svcs) with
      | error e => rw [hadd] at h; cases h
      | ok v2 =>
        rw [hadd] at h
        exact main v2 (fun s hs => add_ground_saver_mem hadd hs) h

/-- Witness for the amended C2: the FedEx conjunct at a one-option order
arriving before the deadline, and the UPS conjunct at the Ground Saver
pipeline of the counterexample, where the saver disjunct is the one that
holds. -/
theorem claim2_deadline_amended_witness :
    ((⟨"FedEx Ground®", 875, 8640⟩ : FxOption).delivery_date ≤ 10000)
    ∧ ((⟨"ups_walleted", "UPS Ground Saver", 800, 144000⟩ : UpsRate).serviceCode
          = "UPS Ground Saver"
        ∨ (⟨"ups_walleted", "UPS Ground Saver", 800, 144000⟩ : UpsRate).deliveryDate
          ≤ 143640) :=
  ⟨claim2_deadline_amended.1 10000 [⟨"FedEx Ground®", 875, 8640⟩]
      ⟨"FedEx Ground®", 875, 8640⟩ rfl,
   claim2_deadline_amended.2 143640 true
      ⟨[], [("UPS® Ground", 1000), ("UPS Ground Saver", 800)]⟩
      [⟨"GND", "UPS Ground", 3, 142560, "FRI"⟩]
      ⟨"ups_walleted", "UPS Ground Saver", 800, 144000⟩ rfl⟩

/-- When the nuveau item loop succeeds, every item sizes successfully. -/
theorem nuveauBoxes_ok_all {l : List NuveauItem} {b : List (Option NBox)}
    (h : nuveauBoxes l = .ok b) :
    ∀ it ∈ l, ∃ bs, get_box_sizes_nuveau it.sku it.quantity = .ok bs := by
  induction l generalizing b with
  | nil => intro it hit; cases hit
  | cons x rest ih =>
    simp only [nuveauBoxes] at h
    cases hg : get_box_sizes_nuveau x.sku x.quantity with
    | error e => rw [hg] at h; cases h
    | ok bs =>
      rw [hg] at h
      dsimp only at h
      cases hr : nuveauBoxes rest with
      | error e => rw [hr] at h; cases h
      | ok rs =>
        intro it hit
        rcases List.mem_cons.mp hit with rfl | hit
        · exact ⟨bs, hg⟩
        · exact ih hr it hit

/-- When the nuveau item loop fails, some item fails to size. -/
theorem nuveauBoxes_error_mem {l : List NuveauItem} {e : String}
    (h : nuveauBoxes l = .error e) :
    ∃ it ∈ l, ∃ e2, get_box_sizes_nuveau it.sku it.quantity = .error e2 := by
  induction l generalizing e with
  | nil => cases h
  | cons x rest ih =>
    simp only [nuveauBoxes] at h
    cases hg : get_box_sizes_nuveau x.sku x.quantity with
    | error e2 => exact ⟨x, List.mem_cons_self _ _, e2, hg⟩
    | ok bs =>
      rw [hg] at h
      dsimp only at h
      cases hr : nuveauBoxes rest with
      | error e2 =>
        rcases ih hr with ⟨it, hit, e3, h3⟩
        exact ⟨it, List.mem_cons_of_mem _ hit, e3, h3⟩
      | ok rs => rw [hr] at h; cases h

/-- Permuting the items permutes the concatenated nuveau box lists. -/
theorem nuveauBoxes_perm {l₁ l₂ : List NuveauItem} (p : l₁.Perm l₂) :
    ∀ {b₁ b₂ : List (Option NBox)}, nuveauBoxes l₁ = .ok b₁ →
      nuveauBoxes l₂ = .ok b₂ → b₁.Perm b₂ := by
  induction p with
  | nil =>
    intro b₁ b₂ h1 h2
    cases h1
    cases h2
    exact List.Perm.refl _
  | @cons x t₁ t₂ p ih =>
    intro b₁ b₂ h1 h2
    simp only [nuveauBoxes] at h1 h2
    cases hg : get_box_sizes_nuveau x.sku x.quantity with
    | error e => rw [hg] at h1; cases h1
    | ok bs =>
      rw [hg] at h1 h2
      dsimp only at h1 h2
      cases hr1 : nuveauBoxes t₁ with
      | error e => rw [hr1] at h1; cases h1
      | ok r₁ =>
        cases hr2 : nuveauBoxes t₂ with
        | error e => rw [hr2] at h2; cases h2
        | ok r₂ =>
          rw [hr1] at h1
          rw [hr2] at h2
          cases h1
          cases h2
          exact List.Perm.append_left bs (ih hr1 hr2)
  | swap x y l =>
    intro b₁ b₂ h1 h2
    simp only [nuveauBoxes] at h1 h2
    cases hgy : get_box_sizes_nuveau y.sku y.quantity with
    | error e => rw [hgy] at h1; cases h1
    | ok bsy =>
      rw [hgy] at h1 h2
      dsimp only at h1 h2
      cases hgx : get_box_sizes_nuveau x.sku x.quantity with
      | error e => rw [hgx] at h1; cases h1
      | ok bsx =>
        rw [hgx] at h1 h2
        dsimp only at h1 h2
        cases hrl : nuveauBoxes l with
        | error e => rw [hrl] at h1; cases h1
        | ok rl =>
          rw [hrl] at h1 h2
          cases h1
          cases h2
          have hp : List.Perm ((bsy ++ bsx) ++ rl) ((bsx ++ bsy) ++ rl) :=
            List.perm_append_comm.append_right rl
          simpa [List.append_assoc] using hp
  | @trans la lb lc p₁ p₂ ih₁ ih₂ =>
    intro b₁ b₂ h1 h2
    cases hm : nuveauBoxes lb with
    | error e =>
      rcases nuveauBoxes_error_mem hm with ⟨it, hit, e2, h3⟩
      rcases nuveauBoxes_ok_all h1 it (p₁.symm.subset hit) with ⟨bs, hbs⟩
      rw [hbs] at h3
      cases h3
    | ok bm => exact (ih₁ h1 hm).trans (ih₂ hm h2)

/-- Claim C6, counterexample.  The claim states permuting the line items
leaves the aggregate length and width unchanged.  The Stallion codes 2024
(23 by 31) and 2430 (26 by 28) tie on footprint 54, and the max builtin
keeps the first maximal element, so the two orders of the same two items
produce different length-width pairs. -/
theorem claim6_perm_counterexample :
    multi_dims_lentics true false
        [⟨"a", 1, "ST | 2024"⟩, ⟨"b", 1, "ST | 2430"⟩]
      = .ok (some ⟨2300, 3100, 400, 22400⟩)
    ∧ multi_dims_lentics true false
        [⟨"b", 1, "ST | 2430"⟩, ⟨"a", 1, "ST | 2024"⟩]
      = .ok (some ⟨2600, 2800, 400, 22400⟩)
    ∧ (⟨2300, 3100, 400, 22400⟩ : DimsResult) ≠ ⟨2600, 2800, 400, 22400⟩ := by
  exact ⟨rfl, rfl, by decide⟩

/-- Claim C6 as amended: for both resolvers on multi-orders, permuting the
line items leaves the aggregate height and weight (both sums) unchanged;
the length-width pair is not invariant because it comes from the first box
maximizing the selection key (footprint for lentics, length alone for
nuveau) and distinct boxes can tie on that key. -/
theorem claim6_perm_amended :
    (∀ (items items' : List LenticsItem), items.Perm items' →
      ∀ d d', multi_dims_lentics true false items = .ok (some d) →
        multi_dims_lentics true false items' = .ok (some d') →
        d.height = d'.height ∧ d.weight_oz = d'.weight_oz)
    ∧ (∀ (items items' : List NuveauItem), items.Perm items' →
      ∀ d d', multi_dims_nuveau true false items = .ok (some d) →
        multi_dims_nuveau true false items' = .ok (some d') →
        d.height = d'.height ∧ d.weight_oz = d'.weight_oz) := by
  constructor
  · intro items items' p d d' h1 h2
    have hperm : (items.flatMap fun it =>
          get_box_sizes_lentics it.quantity it.warehouseLocation).Perm
        (items'.flatMap fun it =>
          get_box_sizes_lentics it.quantity it.warehouseLocation) :=
      p.flatMap_right _
    have hL1 : lentics_list_box_sizes true false items
        = .ok (items.flatMap fun it =>
            get_box_sizes_lentics it.quantity it.warehouseLocation) := rfl
    have hL2 : lentics_list_box_sizes true false items'
        = .ok (items'.flatMap fun it =>
            get_box_sizes_lentics it.quantity it.warehouseLocation) := rfl
    unfold multi_dims_lentics at h1 h2
    rw [hL1] at h1
    rw [hL2] at h2
    dsimp only at h1 h2
    by_cases hn : none ∈ items.flatMap fun it =>
        get_box_sizes_lentics it.quantity it.warehouseLocation
    · rw [if_pos hn] at h1
      simp at h1
    · have hn2 : none ∉ items'.flatMap fun it =>
          get_box_sizes_lentics it.quantity it.warehouseLocation :=
        fun hm => hn (hperm.mem_iff.mpr hm)
      rw [if_neg hn] at h1
      rw [if_neg hn2] at h2
      have hred : ((items.flatMap fun it =>
            get_box_sizes_lentics it.quantity it.warehouseLocation).reduceOption).Perm
          ((items'.flatMap fun it =>
            get_box_sizes_lentics it.quantity it.warehouseLocation).reduceOption) :=
        hperm.filterMap id
      cases hmax1 : pyMaxBy (fun b => b.L + b.W)
          ((items.flatMap fun it =>
            get_box_sizes_lentics it.quantity it.warehouseLocation).reduceOption) with
      | none => rw [hmax1] at h1; cases h1
      | some m1 =>
        cases hmax2 : pyMaxBy (fun b => b.L + b.W)
            ((items'.flatMap fun it =>
              get_box_sizes_lentics it.quantity it.warehouseLocation).reduceOption) with
        | none => rw [hmax2] at h2; cases h2
        | some m2 =>
          rw [hmax1] at h1
          rw [hmax2] at h2
          cases h1
          cases h2
          exact ⟨(hred.map (fun b => b.H)).sum_eq,
                 (hred.map (fun b => b.Ounces)).sum_eq⟩
  · intro items items' p d d' h1 h2
    have hL1 : nuveau_list_box_sizes true false items = nuveauBoxes items := rfl
    have hL2 : nuveau_list_box_sizes true false items' = nuveauBoxes items' := rfl
    unfold multi_dims_nuveau at h1 h2
    rw [hL1] at h1
    rw [hL2] at h2
    cases hb1 : nuveauBoxes items with
    | error e => rw [hb1] at h1; cases h1
    | ok L1 =>
      cases hb2 : nuveauBoxes items' with
      | error e => rw [hb2] at h2; cases h2
      | ok L2 =>
        rw [hb1] at h1
        rw [hb2] at h2
        dsimp only at h1 h2
        have hperm : L1.Perm L2 := nuveauBoxes_perm p hb1 hb2
        by_cases hn : none ∈ L1
        · rw [if_pos hn] at h1
          simp at h1
        · have hn2 : none ∉ L2 := fun hm => hn (hperm.mem_iff.mpr hm)
          rw [if_neg hn] at h1
          rw [if_neg hn2] at h2
          have hred : L1.reduceOption.Perm L2.reduceOption := hperm.filterMap id
          cases hmax1 : pyMaxBy (fun b => b.idx0) L1.reduceOption with
          | none => rw [hmax1] at h1; cases h1
          | some m1 =>
            cases hmax2 : pyMaxBy (fun b => b.idx0) L2.reduceOption with
            | none => rw [hmax2] at h2; cases h2
            | some m2 =>
              rw [hmax1] at h1
              rw [hmax2] at h2
              cases h1
              cases h2
              exact ⟨(hred.map (fun b => b.idx2)).sum_eq,
                     (hred.map (fun b => b.idx3)).sum_eq⟩

/-- Witness for the amended C6: the tied-footprint Stallion pair of the
counterexample still agrees on height and weight under both orders, and the
nuveau pair F1, T1 (tied on length 22) likewise. -/
theorem claim6_perm_amended_witness :
    ((⟨2300, 3100, 400, 22400⟩ : DimsResult).height
        = (⟨2600, 2800, 400, 22400⟩ : DimsResult).height
      ∧ (⟨2300, 3100, 400, 22400⟩ : DimsResult).weight_oz
        = (⟨2600, 2800, 400, 22400⟩ : DimsResult).weight_oz)
    ∧ ((⟨2200, 1500, 300, 9000⟩ : DimsResult).height
        = (⟨2200, 1650, 300, 9000⟩ : DimsResult).height
      ∧ (⟨2200, 1500, 300, 9000⟩ : DimsResult).weight_oz
        = (⟨2200, 1650, 300, 9000⟩ : DimsResult).weight_oz) :=
  ⟨claim6_perm_amended.1
      [⟨"a", 1, "ST | 2024"⟩, ⟨"b", 1, "ST | 2430"⟩]
      [⟨"b", 1, "ST | 2430"⟩, ⟨"a", 1, "ST | 2024"⟩]
      (List.Perm.swap (⟨"b", 1, "ST | 2430"⟩ : LenticsItem) ⟨"a", 1, "ST | 2024"⟩ [])
      ⟨2300, 3100, 400, 22400⟩ ⟨2600, 2800, 400, 22400⟩ rfl rfl,
   claim6_perm_amended.2
      [⟨"F1a", 1⟩, ⟨"T1b", 1⟩] [⟨"T1b", 1⟩, ⟨"F1a", 1⟩]
      (List.Perm.swap (⟨"T1b", 1⟩ : NuveauItem) ⟨"F1a", 1⟩ [])
      ⟨2200, 1500, 300, 9000⟩ ⟨2200, 1650, 300, 9000⟩ rfl rfl⟩
